import Mathlib

/-!
Shallow embedding of the master-data reconciliation engine of
`docs/flows/feature_flows/data_validation_flow.py` (function
`data_validation_flow`), with the near-verbatim copy in
`docs/dataset_etl_flow.py` (`validate_and_calibrate_data`) as a second
source.  Tabular cells are `Option String` (`none` models a pandas NA),
dataframes are lists of rows, the two pandas dicts `authority_table` /
`authority_table_reverse` are association lists in insertion order, and
the S3 blob store for the resolution document is an `Option` field of the
run state.  I/O failures (missing `local_path`, read/write exceptions)
are modelled by a dataset whose `content` is `none`.
-/

namespace DataValidation

/-! ### String primitives mirroring the Python expressions -/

/-- Drop leading whitespace characters. -/
def dropLeadingWs : List Char → List Char
  | [] => []
  | c :: cs => if c.isWhitespace then dropLeadingWs cs else c :: cs

/-- Python `str.strip()` as used on every extracted cell. -/
def pyStrip (s : String) : String :=
  String.mk ((dropLeadingWs (dropLeadingWs s.toList).reverse).reverse)

/-- Python `str.lower()`. -/
def pyLower (s : String) : String := String.mk (s.toList.map Char.toLower)

/-- Python `str.upper()`. -/
def pyUpper (s : String) : String := String.mk (s.toList.map Char.toUpper)

/-- `code.replace("-", "").replace(" ", "").upper()` (the `code_clean`
expression of the authority-build loop). -/
def cleanCode (s : String) : String :=
  pyUpper (String.mk (s.toList.filter (fun c => !(c == '-' || c == ' '))))

/-- Consume a maximal run of ASCII digits, returning how many were
consumed and the rest of the characters. -/
def takeDigits : List Char → Nat × List Char
  | [] => (0, [])
  | c :: cs =>
    if c.isDigit then
      let r := takeDigits cs
      (r.1 + 1, r.2)
    else (0, c :: cs)

/-- The exponent part of the scientific-notation pattern: an optional
`+` followed by one or more digits and the end of the string. -/
def sciExpTail (l : List Char) : Bool :=
  let rest :=
    match l with
    | '+' :: t => t
    | t => t
  let r := takeDigits rest
  r.1 != 0 && r.2.isEmpty

/-- The regex `^(\d+)\.(\d+)E\+?(\d+)$` (case-insensitive) applied to
`code_clean`: standard scientific-notation corruption. -/
def sciStandard (s : String) : Bool :=
  let p1 := takeDigits s.toList
  if p1.1 == 0 then false
  else
    match p1.2 with
    | '.' :: r2 =>
      let p2 := takeDigits r2
      if p2.1 == 0 then false
      else
        match p2.2 with
        | c :: r4 => (c == 'E' || c == 'e') && sciExpTail r4
        | [] => false
    | _ => false

/-- `"." in code_clean and re.search(r"[EeMm]\+?", code_clean)`:
truncated scientific-notation corruption. -/
def sciTruncated (s : String) : Bool :=
  s.toList.contains '.'
    && s.toList.any (fun c => c == 'E' || c == 'e' || c == 'M' || c == 'm')

/-- `re.sub(r"[^0-9A-Za-z]", "", code_clean)`: keep only ASCII
alphanumeric characters. -/
def alphanumOnly (s : String) : String :=
  String.mk (s.toList.filter Char.isAlphanum)

/-- The null sentinels of the authority-build loop:
`["nan", "none", "null", ""]` compared against the lowered cell. -/
def nullSentinels : List String := ["nan", "none", "null", ""]

/-- `not code or code.lower() in ["nan", "none", "null", ""]`. -/
def isMissingCell (s : String) : Bool :=
  s == "" || nullSentinels.contains (pyLower s)

/-! ### Identifier Normalizer

The spec's `classify` contract (§4.1).  The authority-build loop inlines
exactly these tests in exactly this order; `classify` factors them out so
the builder below can branch on the outcome.  The silent-skip case of the
source (a non-sentinel cell whose `code_clean` is empty, e.g. `"-"`) is
folded into `missing` because the source skips it without an issue. -/

inductive Classification where
  | missing
  | malformedSci (pat : String)
  | malformedInvalid
  | malformedWrongLength (n : Nat)
  | valid (normalized : String)
deriving DecidableEq

def classify (code : String) : Classification :=
  if isMissingCell code then .missing
  else
    let cc := cleanCode code
    if sciStandard cc then .malformedSci "standard"
    else if sciTruncated cc then .malformedSci "truncated"
    else
      let an := alphanumOnly cc
      if an == "" then
        if cc.length > 0 then .malformedInvalid else .missing
      else if an.length != 18 then .malformedWrongLength an.length
      else .valid an

/-! ### Rows and cells -/

/-- One dataframe row, restricted to the two columns the engine touches
(the `统一社会信用代码` code column and the `单位详细名称` name column).
`none` models a pandas NA cell. -/
structure Row where
  code : Option String
  name : Option String
deriving DecidableEq

/-- `str(cell).strip() if pd.notna(cell) else ""`. -/
def cellToStr : Option String → String
  | none => ""
  | some v => pyStrip v

/-! ### Association lists for the two dict views -/

/-- Python `dict` lookup `d.get(k)` on an insertion-ordered assoc list. -/
def alookup (k : String) : List (String × String) → Option String
  | [] => none
  | p :: rest => if p.1 == k then some p.2 else alookup k rest

/-- Python `dict` assignment `d[k] = v`: replace in place when the key is
present, append otherwise. -/
def aset (k v : String) : List (String × String) → List (String × String)
  | [] => [(k, v)]
  | p :: rest => if p.1 == k then (k, v) :: rest else p :: aset k v rest

/-- Python `del d[k]`. -/
def aremove (k : String) (l : List (String × String)) : List (String × String) :=
  l.filter (fun p => !(p.1 == k))

/-! ### Authority Table Builder (§4.2) -/

/-- A `truncated_codes` issue entry (the advisory `note`/`pattern`/
`length` payload strings are omitted; `code` is the original stripped
cell, `rowIndex` the dataframe index). -/
structure TruncIssue where
  file : String
  code : String
  name : String
  rowIndex : Nat
deriving DecidableEq

/-- A `one_to_many_code` issue entry. -/
structure CodeConflictIssue where
  code : String
  existingName : String
  newName : String
  file : String
deriving DecidableEq

/-- A `one_to_many_name` issue entry. -/
structure NameConflictIssue where
  name : String
  existingCode : String
  newCode : String
  file : String
deriving DecidableEq

/-- A `missing_codes` issue entry. -/
structure MissingIssue where
  file : String
  name : String
  rowIndex : Nat
deriving DecidableEq

/-- The mutable state of the authority-build loop: the two dict views
plus the issue lists it appends to. -/
structure AuthState where
  table : List (String × String)
  revTable : List (String × String)
  truncated : List TruncIssue
  oneToManyCode : List CodeConflictIssue
  oneToManyName : List NameConflictIssue
deriving DecidableEq

def initAuthState : AuthState := ⟨[], [], [], [], []⟩

def addTrunc (st : AuthState) (i : TruncIssue) : AuthState :=
  { st with truncated := st.truncated ++ [i] }

/-- The insertion tail of the authority-build loop body: the name
sentinel guard, then the `code → name` first-seen insert with
`one_to_many_code` conflict detection, then the symmetric
`name → code` insert.  `code` is the raw stripped cell (the source keys
both dicts by `code`, not by `code_alphanumeric`).  The two dict blocks
of the source touch disjoint state (`authority_table` /
`one_to_many_code` versus `authority_table_reverse` /
`one_to_many_name`), so they are computed as two independent pairs. -/
def insertPhase (st : AuthState) (code name ft : String) : AuthState :=
  if isMissingCell name then st
  else
    let fwd :=
      match alookup code st.table with
      | some existing =>
        if existing ≠ name then
          (st.table, st.oneToManyCode ++ [CodeConflictIssue.mk code existing name ft])
        else (st.table, st.oneToManyCode)
      | none => (st.table ++ [(code, name)], st.oneToManyCode)
    let bwd :=
      match alookup name st.revTable with
      | some existing =>
        if existing ≠ code then
          (st.revTable, st.oneToManyName ++ [NameConflictIssue.mk name existing code ft])
        else (st.revTable, st.oneToManyName)
      | none => (st.revTable ++ [(name, code)], st.oneToManyName)
    ⟨fwd.1, bwd.1, st.truncated, fwd.2, bwd.2⟩

/-- One iteration of the authority-build row loop (`for idx, row in
df.iterrows()`).  Faithful to the source's control flow: scientific
notation and invalid-format rows are `continue`d after the issue, while a
wrong-length row emits its issue and then falls through to the insertion
phase (the source has no `continue` on that branch). -/
def processAuthRow (ft : String) (st : AuthState) (ir : Nat × Row) : AuthState :=
  let code := cellToStr ir.2.code
  let name := cellToStr ir.2.name
  match classify code with
  | .missing => st
  | .malformedSci _ => addTrunc st ⟨ft, code, name, ir.1⟩
  | .malformedInvalid => addTrunc st ⟨ft, code, name, ir.1⟩
  | .malformedWrongLength _ => insertPhase (addTrunc st ⟨ft, code, name, ir.1⟩) code name ft
  | .valid _ => insertPhase st code name ft

/-- The row loop over one authority dataframe. -/
def buildAuthRows (ft : String) (st : AuthState) (rows : List Row) : AuthState :=
  rows.enum.foldl (processAuthRow ft) st

/-! ### Dataset handles -/

/-- One entry of the `cleaned_files` list: its `normalized_name` and its
tabular content.  `content = none` models a missing `local_path` or a
read/write exception on the file (both are handled identically:
skip / pass through). -/
structure DataFile where
  normalizedName : String
  content : Option (List Row)
deriving DecidableEq

/-- Python `str.replace(".parquet", "")`: remove every occurrence of the
substring. -/
def removeParquet : List Char → List Char
  | '.' :: 'p' :: 'a' :: 'r' :: 'q' :: 'u' :: 'e' :: 't' :: rest => removeParquet rest
  | c :: rest => c :: removeParquet rest
  | [] => []

def normName (s : String) : String := String.mk (removeParquet s.toList)

/-- Which canonical source a file is, if any:
`normalized_name.replace(".parquet","")` compared with the two exact
canonical names (no strip in the source here). -/
def authorityKeyOf (f : DataFile) : Option String :=
  if normName f.normalizedName == "单位基本情况_611" then some "611"
  else if normName f.normalizedName == "调查单位基本情况_601" then some "601"
  else none

/-- The `authority_files` dict: keyed by `"611"` / `"601"` with Python
dict overwrite semantics (a later file of the same type replaces the
value but keeps the key's insertion position). -/
def dictSetFile (k : String) (v : DataFile) :
    List (String × DataFile) → List (String × DataFile)
  | [] => [(k, v)]
  | p :: rest => if p.1 == k then (k, v) :: rest else p :: dictSetFile k v rest

def collectAuth (files : List DataFile) : List (String × DataFile) :=
  files.foldl
    (fun acc f =>
      match authorityKeyOf f with
      | some k => dictSetFile k f acc
      | none => acc) []

/-- The `other_files` list. -/
def otherFilesOf (files : List DataFile) : List DataFile :=
  files.filter (fun f => (authorityKeyOf f).isNone)

/-- The authority-build loop over the `authority_files` dict.  A file
whose content cannot be read (`none`) is skipped with a warning, leaving
the state untouched (the `except` branch of the per-file loop). -/
def buildAuthority (authList : List (String × DataFile)) : AuthState :=
  authList.foldl
    (fun st kf =>
      match kf.2.content with
      | none => st
      | some rows => buildAuthRows kf.1 st rows) initAuthState

/-! ### Dataset Reconciler (§4.3) -/

/-- Pass 1 (`match_name_by_code` + masked overwrite): when the row's
code cell is non-NA and its stripped value is a key of the
`code → name` view, the name cell is overwritten with the authority
name. -/
def step1Row (table : List (String × String)) (r : Row) : Row :=
  match r.code with
  | none => r
  | some v =>
    match alookup (pyStrip v) table with
    | some n => { r with name := some n }
    | none => r

/-- Pass 2 (`match_code_by_name` + masked overwrite): when the row's
name cell is non-NA and its stripped value is a key of the
`name → code` view, the code cell is overwritten with the authority
code.  The source runs this over the whole column after pass 1, with no
exclusion of rows already matched in pass 1. -/
def step2Row (revT : List (String × String)) (r : Row) : Row :=
  match r.name with
  | none => r
  | some v =>
    match alookup (pyStrip v) revT with
    | some c => { r with code := some c }
    | none => r

/-- Both calibration passes over one dataframe. -/
def reconcileRows (table revT : List (String × String)) (rows : List Row) : List Row :=
  (rows.map (step1Row table)).map (step2Row revT)

/-- `is_code_missing`: NA, or the stripped value is one of the literal
sentinels (no case folding here), or empty/whitespace. -/
def bigSentinels : List String :=
  ["", "nan", "none", "null", "None", "NULL", "NaN", "N/A", "n/a"]

def pyIsSpace (s : String) : Bool :=
  s ≠ "" && s.toList.all Char.isWhitespace

def isCodeMissing (c : Option String) : Bool :=
  match c with
  | none => true
  | some v =>
    let s := pyStrip v
    bigSentinels.contains s || s == "" || pyIsSpace s

/-- `is_name_valid`. -/
def isNameValid (c : Option String) : Bool :=
  match c with
  | none => false
  | some v =>
    let s := pyStrip v
    !(bigSentinels.contains s) && !(pyIsSpace s)

/-- The missing-code scan after both calibration passes: rows whose code
is still missing but whose name is valid are flagged, unless
`(file_name.replace(".parquet",""), row_index)` is in `fixed_rows`. -/
def missingScan (fileName : String) (fixedRows : List (String × Nat))
    (rows : List Row) : List MissingIssue :=
  rows.enum.filterMap
    (fun ir =>
      if isCodeMissing ir.2.code && isNameValid ir.2.name
          && !(decide ((normName fileName, ir.1) ∈ fixedRows)) then
        some ⟨fileName, cellToStr ir.2.name, ir.1⟩
      else none)

/-- Calibration of one non-canonical file: an unreadable file is passed
through unmodified with no issues (the `except`/missing-path branches);
otherwise both passes run and the missing-code scan reports on the
calibrated rows. -/
def calibrateFile (table revT : List (String × String))
    (fixedRows : List (String × Nat)) (f : DataFile) :
    DataFile × List MissingIssue :=
  match f.content with
  | none => (f, [])
  | some rows =>
    let rows2 := reconcileRows table revT rows
    (⟨f.normalizedName, some rows2⟩, missingScan f.normalizedName fixedRows rows2)

/-- The calibration loop over `other_files`, accumulating the calibrated
list and the new `missing_codes` issues in order. -/
def calibrateAll (table revT : List (String × String))
    (fixedRows : List (String × Nat)) :
    List DataFile → List DataFile × List MissingIssue
  | [] => ([], [])
  | f :: fs =>
    let hd := calibrateFile table revT fixedRows f
    let tl := calibrateAll table revT fixedRows fs
    (hd.1 :: tl.1, hd.2 ++ tl.2)

/-! ### Resolution Applier (§4.5) -/

/-- One `truncated_codes` resolution entry. -/
structure TruncFix where
  code : String
  fixedCode : String
deriving DecidableEq

/-- One `one_to_many_code` resolution entry. -/
structure OtmCodeFix where
  code : String
  selectedName : String
deriving DecidableEq

/-- One `one_to_many_name` resolution entry. -/
structure OtmNameFix where
  name : String
  selectedCode : String
deriving DecidableEq

/-- One `missing_codes` resolution entry (`row_index` is absent when the
JSON field is missing). -/
structure MissingFix where
  name : String
  code : String
  file : String
  rowIndex : Option Nat
deriving DecidableEq

/-- The parsed `validation_resolutions.json` document. -/
structure ResolutionDoc where
  truncatedFixes : List TruncFix
  otmCodeFixes : List OtmCodeFix
  otmNameFixes : List OtmNameFix
  missingFixes : List MissingFix
deriving DecidableEq

/-- The state the resolution block mutates: the two authority views and
the cleaned-file list (whose parquet contents the missing-code fixes
patch in place). -/
structure ResState where
  table : List (String × String)
  revT : List (String × String)
  files : List DataFile
deriving DecidableEq

def applyTruncFix (st : ResState) (fix : TruncFix) : ResState :=
  let oldC := pyStrip fix.code
  let newC := pyStrip fix.fixedCode
  if oldC ≠ "" && newC ≠ "" then
    match alookup oldC st.table with
    | some name =>
      { st with
        table := aremove oldC (aset newC name st.table)
        revT := aset name newC st.revT }
    | none => st
  else st

def applyOtmCodeFix (st : ResState) (fix : OtmCodeFix) : ResState :=
  let code := pyStrip fix.code
  let sel := pyStrip fix.selectedName
  if code ≠ "" && sel ≠ "" then
    { st with table := aset code sel st.table, revT := aset sel code st.revT }
  else st

def applyOtmNameFix (st : ResState) (fix : OtmNameFix) : ResState :=
  let name := pyStrip fix.name
  let sel := pyStrip fix.selectedCode
  if name ≠ "" && sel ≠ "" then
    { st with table := aset sel name st.table, revT := aset name sel st.revT }
  else st

/-- Patch the first file satisfying `p` (the `for ... break` target
search); when no file matches, the list is unchanged and a warning is
logged. -/
def patchFirst (p : DataFile → Bool) (g : DataFile → DataFile) :
    List DataFile → List DataFile
  | [] => []
  | f :: fs => if p f then g f :: fs else f :: patchFirst p g fs

/-- The per-file part of a `missing_codes` fix: read the parquet
(modelled as `content`), bounds-check `row_index`, and apply the
name-equality guard — the code cell is overwritten and the file written
back only when the row's current stripped name equals the name recorded
in the fix; on mismatch a warning is logged and the file is left
untouched.  A `none` content models the missing-path / read-exception
branches, which also leave the file untouched. -/
def patchFileForFix (name code : String) (rowIndex : Option Nat)
    (f : DataFile) : DataFile :=
  match f.content with
  | none => f
  | some rows =>
    match rowIndex with
    | none => f
    | some i =>
      if h : i < rows.length then
        let actual := cellToStr (rows.get ⟨i, h⟩).name
        if actual == name then
          ⟨f.normalizedName, some (rows.set i { rows.get ⟨i, h⟩ with code := some code })⟩
        else f
      else f

/-- Predicate used to state the name-equality guard: the row addressed
by a `missing_codes` fix cannot be patched — the file is unreadable, the
row index is out of range, or the row's current stripped name differs
from the name recorded in the fix. -/
def rowNameMismatch (fix : MissingFix) (i : Nat) (f : DataFile) : Bool :=
  match f.content with
  | none => true
  | some rows =>
    if h : i < rows.length then
      cellToStr (rows.get ⟨i, h⟩).name != pyStrip fix.name
    else true

/-- The target of a `missing_codes` fix: the first file whose
`normalized_name.replace(".parquet","").strip()` equals the fix's
`file.strip().replace(".parquet","").strip()` (the source searches
`other_files` first and then the whole `cleaned_files` list; collapsed
here to one pass over the full list). -/
def isFixTarget (fileField : String) (f : DataFile) : Bool :=
  pyStrip (normName f.normalizedName) == pyStrip (normName (pyStrip fileField))

/-- One `missing_codes` fix: when both `name` and `code` are nonempty the
authority views are updated unconditionally, and the source row is then
patched through the name-equality guard. -/
def applyMissingFix (st : ResState) (fix : MissingFix) : ResState :=
  let name := pyStrip fix.name
  let code := pyStrip fix.code
  if name ≠ "" && code ≠ "" then
    { table := aset code name st.table
      revT := aset name code st.revT
      files := patchFirst (isFixTarget fix.file)
        (patchFileForFix name code fix.rowIndex) st.files }
  else st

/-- The whole resolution block: the four fix lists in source order. -/
def applyDoc (doc : ResolutionDoc) (st : ResState) : ResState :=
  let st1 := doc.truncatedFixes.foldl applyTruncFix st
  let st2 := doc.otmCodeFixes.foldl applyOtmCodeFix st1
  let st3 := doc.otmNameFixes.foldl applyOtmNameFix st2
  doc.missingFixes.foldl applyMissingFix st3

/-- The recording loop that fills `fixed_rows` after the fixes are
applied: every `missing_codes` entry with a nonempty `file`, a present
`row_index` and a nonempty `code` is recorded, with no reference to
whether its patch succeeded. -/
def recordFixedRows (fixes : List MissingFix) : List (String × Nat) :=
  fixes.filterMap
    (fun f =>
      let fn := pyStrip f.file
      let cd := pyStrip f.code
      match f.rowIndex with
      | some i => if fn ≠ "" && cd ≠ "" then some (normName fn, i) else none
      | none => none)

/-- Result of the resolution phase of one iteration. -/
structure ResPhaseOut where
  store : Option ResolutionDoc
  state : ResState
  hadRes : Bool
  fixedRows : List (String × Nat)
deriving DecidableEq

/-- Step 3 of one iteration: read `validation_resolutions.json` from the
store; when present, apply it, record the fixed rows, and delete the
document from the store before the run proceeds (the source deletes the
S3 key immediately after a successful application, precisely to prevent
re-application). -/
def resolutionPhase (resDoc : Option ResolutionDoc) (st : ResState) : ResPhaseOut :=
  match resDoc with
  | none => ⟨none, st, false, []⟩
  | some doc => ⟨none, applyDoc doc st, true, recordFixedRows doc.missingFixes⟩

/-! ### Issue Classifier & Iteration Controller (§4.4, §4.6) -/

/-- The four issue lists of one pass, as aggregated for the report. -/
structure IssuesRec where
  truncated : List TruncIssue
  oneToManyCode : List CodeConflictIssue
  oneToManyName : List NameConflictIssue
  missingCodes : List MissingIssue
deriving DecidableEq

/-- `has_critical_issues` after both the build checks and the
post-calibration missing-code check: true iff any of the four lists is
nonempty. -/
def hasCriticalIssues (i : IssuesRec) : Bool :=
  !i.truncated.isEmpty || !i.oneToManyCode.isEmpty
    || !i.oneToManyName.isEmpty || !i.missingCodes.isEmpty

/-- How one pass of the loop body ends. -/
inductive PassOutcome where
  | convergedReturn (files : List DataFile)
  | pausedReport (tc cm nm mc : Nat)
  | loopAgain
deriving DecidableEq

/-- The tail of the loop body (steps 4–6): when resolutions were applied
this run, `has_critical_issues` is forced to `False` and the calibrated
list is returned; otherwise critical issues persist a pending report and
pause (or return the pause marker), and a clean pass falls through to the
next iteration. -/
def passFinish (hadRes : Bool) (issues : IssuesRec)
    (calibrated : List DataFile) : PassOutcome :=
  if hadRes then .convergedReturn calibrated
  else if hasCriticalIssues issues then
    .pausedReport issues.truncated.length issues.oneToManyCode.length
      issues.oneToManyName.length issues.missingCodes.length
  else .loopAgain

/-- How a call of the flow resolves at the top of an iteration. -/
inductive EntryResult where
  | skipped (files : List DataFile)
  | proceeded (outcome : PassOutcome)
deriving DecidableEq

/-- One full iteration of the `data_validation_flow` loop body, from the
empty-input and authority-file guards through build, resolution,
calibration and the final branch.  The two early `return cleaned_files`
exits (no cleaned files / no authority file) happen before any file is
read, any issue recorded or any pause attempted. -/
def runIteration (resDoc : Option ResolutionDoc) (files : List DataFile) :
    EntryResult :=
  if files.isEmpty then .skipped files
  else
    let auth := collectAuth files
    if auth.isEmpty then .skipped files
    else
      let st0 := buildAuthority auth
      let rp := resolutionPhase resDoc ⟨st0.table, st0.revTable, files⟩
      let cal := calibrateAll rp.state.table rp.state.revT rp.fixedRows
        (otherFilesOf rp.state.files)
      let issues : IssuesRec :=
        ⟨st0.truncated, st0.oneToManyCode, st0.oneToManyName, cal.2⟩
      let authAfter := (collectAuth rp.state.files).map Prod.snd
      .proceeded (passFinish rp.hadRes issues (cal.1 ++ authAfter))

/-! ## Helper lemmas -/

@[simp]
theorem alookup_nil (k : String) : alookup k [] = none := rfl

@[simp]
theorem alookup_cons (k : String) (p : String × String) (rest : List (String × String)) :
    alookup k (p :: rest) = if p.1 == k then some p.2 else alookup k rest := rfl

theorem alookup_append_some {k v : String} {l l2 : List (String × String)}
    (h : alookup k l = some v) : alookup k (l ++ l2) = some v := by
  induction l with
  | nil => simp at h
  | cons p rest ih =>
    rw [List.cons_append]
    by_cases hp : (p.1 == k) = true
    · simpa [hp] using h
    · simp only [alookup_cons, hp, if_false] at h ⊢
      exact ih h

theorem alookup_append_none {k : String} {l l2 : List (String × String)}
    (h : alookup k l = none) : alookup k (l ++ l2) = alookup k l2 := by
  induction l with
  | nil => simp
  | cons p rest ih =>
    rw [List.cons_append]
    by_cases hp : (p.1 == k) = true
    · simp [hp] at h
    · simp only [alookup_cons, hp, if_false] at h ⊢
      exact ih h

/-- Field characterization of `insertPhase`: the `code → name` view. -/
theorem insertPhase_table (st : AuthState) (code name ft : String) :
    (insertPhase st code name ft).table =
      if isMissingCell name then st.table
      else
        match alookup code st.table with
        | some _ => st.table
        | none => st.table ++ [(code, name)] := by
  cases hm : isMissingCell name
  · cases ht : alookup code st.table with
    | some m => by_cases hne : m = name <;> simp [insertPhase, hm, ht, hne]
    | none => simp [insertPhase, hm, ht]
  · simp [insertPhase, hm]

/-- Field characterization of `insertPhase`: the `name → code` view. -/
theorem insertPhase_revTable (st : AuthState) (code name ft : String) :
    (insertPhase st code name ft).revTable =
      if isMissingCell name then st.revTable
      else
        match alookup name st.revTable with
        | some _ => st.revTable
        | none => st.revTable ++ [(name, code)] := by
  cases hm : isMissingCell name
  · cases hr : alookup name st.revTable with
    | some c => by_cases hc : c = code <;> simp [insertPhase, hm, hr, hc]
    | none => simp [insertPhase, hm, hr]
  · simp [insertPhase, hm]

/-- Field characterization of `insertPhase`: the `one_to_many_code`
issue list. -/
theorem insertPhase_oneToManyCode (st : AuthState) (code name ft : String) :
    (insertPhase st code name ft).oneToManyCode =
      if isMissingCell name then st.oneToManyCode
      else
        match alookup code st.table with
        | some m =>
          if m ≠ name then st.oneToManyCode ++ [⟨code, m, name, ft⟩]
          else st.oneToManyCode
        | none => st.oneToManyCode := by
  cases hm : isMissingCell name
  · cases ht : alookup code st.table with
    | some m => by_cases hne : m = name <;> simp [insertPhase, hm, ht, hne]
    | none => simp [insertPhase, hm, ht]
  · simp [insertPhase, hm]

/-- Field characterization of `insertPhase`: the `one_to_many_name`
issue list. -/
theorem insertPhase_oneToManyName (st : AuthState) (code name ft : String) :
    (insertPhase st code name ft).oneToManyName =
      if isMissingCell name then st.oneToManyName
      else
        match alookup name st.revTable with
        | some c =>
          if c ≠ code then st.oneToManyName ++ [⟨name, c, code, ft⟩]
          else st.oneToManyName
        | none => st.oneToManyName := by
  cases hm : isMissingCell name
  · cases hr : alookup name st.revTable with
    | some c => by_cases hc : c = code <;> simp [insertPhase, hm, hr, hc]
    | none => simp [insertPhase, hm, hr]
  · simp [insertPhase, hm]

/-- `insertPhase` leaves the `truncated_codes` list untouched. -/
theorem insertPhase_truncated (st : AuthState) (code name ft : String) :
    (insertPhase st code name ft).truncated = st.truncated := by
  cases hm : isMissingCell name
  · cases ht : alookup code st.table with
    | some m => by_cases hne : m = name <;> simp [insertPhase, hm, ht, hne]
    | none => simp [insertPhase, hm, ht]
  · simp [insertPhase, hm]

/-- `insertPhase` never removes or overwrites a `code → name` entry. -/
theorem insertPhase_table_preserves {st : AuthState} {c m : String}
    (code name ft : String) (h : alookup c st.table = some m) :
    alookup c (insertPhase st code name ft).table = some m := by
  rw [insertPhase_table]
  cases hm : isMissingCell name
  · simp only [Bool.false_eq_true, if_false]
    cases ht : alookup code st.table with
    | some _ => exact h
    | none => exact alookup_append_some h
  · simpa using h

/-- `insertPhase` never removes or overwrites a `name → code` entry. -/
theorem insertPhase_revTable_preserves {st : AuthState} {n c : String}
    (code name ft : String) (h : alookup n st.revTable = some c) :
    alookup n (insertPhase st code name ft).revTable = some c := by
  rw [insertPhase_revTable]
  cases hm : isMissingCell name
  · simp only [Bool.false_eq_true, if_false]
    cases ht : alookup name st.revTable with
    | some _ => exact h
    | none => exact alookup_append_some h
  · simpa using h

/-- One row step never removes or overwrites a `code → name` entry. -/
theorem processAuthRow_table_preserves (ft : String) (st : AuthState)
    (x : Nat × Row) {c m : String} (h : alookup c st.table = some m) :
    alookup c (processAuthRow ft st x).table = some m := by
  cases hcl : classify (cellToStr x.2.code) <;>
    simp only [processAuthRow, hcl] <;>
    first
      | exact h
      | exact insertPhase_table_preserves _ _ _ h

/-- One row step never removes or overwrites a `name → code` entry. -/
theorem processAuthRow_revTable_preserves (ft : String) (st : AuthState)
    (x : Nat × Row) {n c : String} (h : alookup n st.revTable = some c) :
    alookup n (processAuthRow ft st x).revTable = some c := by
  cases hcl : classify (cellToStr x.2.code) <;>
    simp only [processAuthRow, hcl] <;>
    first
      | exact h
      | exact insertPhase_revTable_preserves _ _ _ h

theorem foldl_processAuthRow_table_preserves (ft : String)
    (l : List (Nat × Row)) {st : AuthState} {c m : String}
    (h : alookup c st.table = some m) :
    alookup c (l.foldl (processAuthRow ft) st).table = some m := by
  induction l generalizing st with
  | nil => exact h
  | cons x xs ih => exact ih (processAuthRow_table_preserves ft st x h)

theorem foldl_processAuthRow_revTable_preserves (ft : String)
    (l : List (Nat × Row)) {st : AuthState} {n c : String}
    (h : alookup n st.revTable = some c) :
    alookup n (l.foldl (processAuthRow ft) st).revTable = some c := by
  induction l generalizing st with
  | nil => exact h
  | cons x xs ih => exact ih (processAuthRow_revTable_preserves ft st x h)

/-! ## Claim theorems -/

/-- C1 (counterexample): a canonical row whose identifier the Normalizer
classifies as `Malformed` for wrong alphanumeric length (here `"12345"`,
length 5) does emit a `truncated_codes` issue, but is NOT excluded from
the authority table: the builder falls through to the insertion phase,
so the table gains an entry whose alphanumeric content is not 18
characters — refuting both the exclusion and the length invariant of
the claim. -/
theorem c1_wrong_length_enters_authority_cex :
    classify "12345" = Classification.malformedWrongLength 5
      ∧ (buildAuthRows "611" initAuthState
          [Row.mk (some "12345") (some "X")]).truncated.length = 1
      ∧ alookup "12345"
          (buildAuthRows "611" initAuthState
            [Row.mk (some "12345") (some "X")]).table = some "X"
      ∧ (alphanumOnly (cleanCode "12345")).length ≠ 18 :=
  ⟨by decide, by decide, by decide, by decide⟩

/-- C1 (amended): rows whose identifier is classified as scientific
notation or invalid format emit a `truncated_codes` issue and are
excluded from both authority views; a wrong-length row emits the issue
but is still inserted (keyed by the raw stripped identifier) whenever
its name is valid and the key is fresh, so the 18-character invariant
fails for such entries. -/
theorem c1_malformed_handling_amended (ft : String) (st : AuthState)
    (i : Nat) (r : Row) :
    (∀ p, classify (cellToStr r.code) = Classification.malformedSci p →
        (processAuthRow ft st (i, r)).table = st.table
          ∧ (processAuthRow ft st (i, r)).revTable = st.revTable
          ∧ (processAuthRow ft st (i, r)).truncated
              = st.truncated ++ [⟨ft, cellToStr r.code, cellToStr r.name, i⟩])
    ∧ (classify (cellToStr r.code) = Classification.malformedInvalid →
        (processAuthRow ft st (i, r)).table = st.table
          ∧ (processAuthRow ft st (i, r)).revTable = st.revTable
          ∧ (processAuthRow ft st (i, r)).truncated
              = st.truncated ++ [⟨ft, cellToStr r.code, cellToStr r.name, i⟩])
    ∧ (∀ n, classify (cellToStr r.code) = Classification.malformedWrongLength n →
        isMissingCell (cellToStr r.name) = false →
        alookup (cellToStr r.code) st.table = none →
        (processAuthRow ft st (i, r)).truncated
            = st.truncated ++ [⟨ft, cellToStr r.code, cellToStr r.name, i⟩]
          ∧ alookup (cellToStr r.code) (processAuthRow ft st (i, r)).table
              = some (cellToStr r.name)) := by
  refine ⟨?_, ?_, ?_⟩
  · intro p hp
    simp only [processAuthRow, hp]
    exact ⟨rfl, rfl, rfl⟩
  · intro hp
    simp only [processAuthRow, hp]
    exact ⟨rfl, rfl, rfl⟩
  · intro n hp hname hfresh
    simp only [processAuthRow, hp]
    constructor
    · rw [insertPhase_truncated]
      rfl
    · rw [insertPhase_table]
      have htab : (addTrunc st ⟨ft, cellToStr r.code, cellToStr r.name, i⟩).table
          = st.table := rfl
      rw [hname]
      simp only [Bool.false_eq_true, if_false, htab, hfresh]
      rw [alookup_append_none hfresh]
      simp

/-- C1 (amended) witness at a concrete wrong-length row. -/
theorem c1_malformed_handling_amended_wit :
    (processAuthRow "611" initAuthState (0, Row.mk (some "12345") (some "X"))).truncated
        = initAuthState.truncated ++ [⟨"611", "12345", "X", 0⟩]
      ∧ alookup "12345"
          (processAuthRow "611" initAuthState (0, Row.mk (some "12345") (some "X"))).table
        = some "X" :=
  (c1_malformed_handling_amended "611" initAuthState 0
    (Row.mk (some "12345") (some "X"))).2.2 5 (by decide) (by decide) (by decide)

/-- C2: first-seen tie-break.  Neither row step ever removes or
overwrites an existing `code → name` or `name → code` entry; on a
conflicting insert the corresponding `one_to_many` issue is appended
while the first-seen mapping is kept; and on the concrete sequence
`(id=A, name=X)` then `(id=A, name=Y)` the authority maps `A → X` with
exactly one `OneCodeManyNames` issue. -/
theorem c2_first_seen_tie_break :
    (∀ (ft : String) (rows : List Row) (st : AuthState) (c m : String),
        alookup c st.table = some m →
        alookup c (buildAuthRows ft st rows).table = some m)
    ∧ (∀ (ft : String) (rows : List Row) (st : AuthState) (n c : String),
        alookup n st.revTable = some c →
        alookup n (buildAuthRows ft st rows).revTable = some c)
    ∧ (∀ (st : AuthState) (code name ft m : String),
        isMissingCell name = false →
        alookup code st.table = some m → m ≠ name →
        (insertPhase st code name ft).oneToManyCode
            = st.oneToManyCode ++ [⟨code, m, name, ft⟩]
          ∧ alookup code (insertPhase st code name ft).table = some m)
    ∧ (∀ (st : AuthState) (code name ft c : String),
        isMissingCell name = false →
        alookup name st.revTable = some c → c ≠ code →
        (insertPhase st code name ft).oneToManyName
            = st.oneToManyName ++ [⟨name, c, code, ft⟩]
          ∧ alookup name (insertPhase st code name ft).revTable = some c)
    ∧ (alookup "AAAAAAAAAAAAAAAAAA"
          (buildAuthRows "611" initAuthState
            [Row.mk (some "AAAAAAAAAAAAAAAAAA") (some "X"),
             Row.mk (some "AAAAAAAAAAAAAAAAAA") (some "Y")]).table
        = some "X"
      ∧ (buildAuthRows "611" initAuthState
            [Row.mk (some "AAAAAAAAAAAAAAAAAA") (some "X"),
             Row.mk (some "AAAAAAAAAAAAAAAAAA") (some "Y")]).oneToManyCode
        = [⟨"AAAAAAAAAAAAAAAAAA", "X", "Y", "611"⟩]) := by
  refine ⟨?_, ?_, ?_, ?_, by decide, by decide⟩
  · intro ft rows st c m h
    exact foldl_processAuthRow_table_preserves ft rows.enum h
  · intro ft rows st n c h
    exact foldl_processAuthRow_revTable_preserves ft rows.enum h
  · intro st code name ft m hname h hne
    constructor
    · rw [insertPhase_oneToManyCode, hname]
      simp only [Bool.false_eq_true, if_false, h]
      rw [if_pos hne]
    · exact insertPhase_table_preserves _ _ _ h
  · intro st code name ft c hname h hne
    constructor
    · rw [insertPhase_oneToManyName, hname]
      simp only [Bool.false_eq_true, if_false, h]
      rw [if_pos hne]
    · exact insertPhase_revTable_preserves _ _ _ h

/-- C2 witness: the preservation and conflict conjuncts applied at a
concrete state and row. -/
theorem c2_first_seen_tie_break_wit :
    alookup "K"
        (buildAuthRows "611" (AuthState.mk [("K", "V")] [] [] [] [])
          [Row.mk (some "K") (some "W")]).table
      = some "V" :=
  c2_first_seen_tie_break.1 "611" [Row.mk (some "K") (some "W")]
    (AuthState.mk [("K", "V")] [] [] [] []) "K" "V" (by decide)

/-- C6 (counterexample): a Valid canonical row is keyed by the raw
stripped cell value, not by the normalized identifier: for the cell
`'9111-0000ma012345x7'` the Normalizer yields the normalized
`'91110000MA012345X7'`, yet the authority entry is keyed by the raw
string and no entry for the normalized key exists. -/
theorem c6_raw_key_cex :
    classify "9111-0000ma012345x7" = Classification.valid "91110000MA012345X7"
      ∧ (buildAuthRows "611" initAuthState
          [Row.mk (some "9111-0000ma012345x7") (some "X")]).table
        = [("9111-0000ma012345x7", "X")]
      ∧ alookup "91110000MA012345X7"
          (buildAuthRows "611" initAuthState
            [Row.mk (some "9111-0000ma012345x7") (some "X")]).table = none
      ∧ alookup "9111-0000ma012345x7"
          (buildAuthRows "611" initAuthState
            [Row.mk (some "9111-0000ma012345x7") (some "X")]).table = some "X" :=
  ⟨by decide, by decide, by decide, by decide⟩

/-- C6 (amended): for every canonical row classified `Valid`, the key
inserted into the identifier→name view (and the value stored in the
name→identifier view) is the raw whitespace-stripped cell value; the
normalized identifier is used only to validate. -/
theorem c6_raw_key_amended (ft : String) (st : AuthState) (i : Nat)
    (r : Row) (nz : String) :
    classify (cellToStr r.code) = Classification.valid nz →
    isMissingCell (cellToStr r.name) = false →
    alookup (cellToStr r.code) st.table = none →
    alookup (cellToStr r.name) st.revTable = none →
    (processAuthRow ft st (i, r)).table
        = st.table ++ [(cellToStr r.code, cellToStr r.name)]
      ∧ (processAuthRow ft st (i, r)).revTable
        = st.revTable ++ [(cellToStr r.name, cellToStr r.code)] := by
  intro hcl hname hfw hbw
  simp only [processAuthRow, hcl]
  constructor
  · rw [insertPhase_table, hname]
    simp only [Bool.false_eq_true, if_false, hfw]
  · rw [insertPhase_revTable, hname]
    simp only [Bool.false_eq_true, if_false, hbw]

/-- C6 (amended) witness at the concrete separator-and-case row. -/
theorem c6_raw_key_amended_wit :
    (processAuthRow "611" initAuthState
        (0, Row.mk (some "9111-0000ma012345x7") (some "X"))).table
      = initAuthState.table ++ [("9111-0000ma012345x7", "X")] :=
  (c6_raw_key_amended "611" initAuthState 0
    (Row.mk (some "9111-0000ma012345x7") (some "X")) "91110000MA012345X7"
    (by decide) (by decide) (by decide) (by decide)).1

/-- C3 (counterexample): a row whose identifier `B` IS present in the
authority identifier map still gets its identifier overwritten by step 2.
With canonical rows `(A, "Acme")`, `(B, "Acme")` the name map keeps the
first-seen `"Acme" → A`; reconciling the dataset row `(B, "Old")` first
overwrites the name with `"Acme"` (step 1) and then overwrites the
identifier with `A` (step 2), so the identifier does not stay `B`. -/
theorem c3_identifier_overwritten_cex :
    alookup "BBBBBBBBBBBBBBBBBB"
        (buildAuthRows "611" initAuthState
          [Row.mk (some "AAAAAAAAAAAAAAAAAA") (some "Acme"),
           Row.mk (some "BBBBBBBBBBBBBBBBBB") (some "Acme")]).table = some "Acme"
      ∧ reconcileRows
          (buildAuthRows "611" initAuthState
            [Row.mk (some "AAAAAAAAAAAAAAAAAA") (some "Acme"),
             Row.mk (some "BBBBBBBBBBBBBBBBBB") (some "Acme")]).table
          (buildAuthRows "611" initAuthState
            [Row.mk (some "AAAAAAAAAAAAAAAAAA") (some "Acme"),
             Row.mk (some "BBBBBBBBBBBBBBBBBB") (some "Acme")]).revTable
          [Row.mk (some "BBBBBBBBBBBBBBBBBB") (some "Old")]
        = [Row.mk (some "AAAAAAAAAAAAAAAAAA") (some "Acme")]
      ∧ ("AAAAAAAAAAAAAAAAAA" : String) ≠ "BBBBBBBBBBBBBBBBBB" :=
  ⟨by decide, by decide, by decide⟩

/-- C3 (amended): reconciliation runs both passes over every row.  When
a row's identifier is present in the identifier→name map, step 1
overwrites the name with the authority name; step 2 then also applies
(it is not restricted to rows unmatched in step 1), so the row's
identifier becomes the name map's identifier for the updated name
whenever that name is mapped, and stays unchanged only otherwise. -/
theorem c3_propagation_amended :
    (∀ (table revT : List (String × String)) (rows : List Row),
        reconcileRows table revT rows
          = rows.map (fun r => step2Row revT (step1Row table r)))
    ∧ (∀ (table revT : List (String × String)) (r : Row) (v n : String),
        r.code = some v → alookup (pyStrip v) table = some n →
        (step2Row revT (step1Row table r)).name = some n
          ∧ (step2Row revT (step1Row table r)).code
            = (match alookup (pyStrip n) revT with
               | some c => some c
               | none => some v)) := by
  constructor
  · intro table revT rows
    rw [reconcileRows, List.map_map]
    rfl
  · intro table revT r v n hv hlook
    have h1 : step1Row table r = { r with name := some n } := by
      simp only [step1Row, hv, hlook]
    rw [h1]
    cases hr : alookup (pyStrip n) revT with
    | some c => simp [step2Row, hr]
    | none => simp [step2Row, hr, hv]

/-- C3 (amended) witness: a row matched by identifier whose name map
sends the authority name to a different identifier. -/
theorem c3_propagation_amended_wit :
    (step2Row [("N", "K2")] (step1Row [("K", "N")] (Row.mk (some "K") (some "Old")))).name
        = some "N"
      ∧ (step2Row [("N", "K2")] (step1Row [("K", "N")] (Row.mk (some "K") (some "Old")))).code
        = some "K2" :=
  c3_propagation_amended.2 [("K", "N")] [("N", "K2")]
    (Row.mk (some "K") (some "Old")) "K" "N" (by decide) (by decide)

/-- C4 (counterexample): a run whose canonical table contains a
scientific-notation identifier (a critical `MalformedIdentifier` issue)
but which also finds a resolution document still ends in the converged
return of the calibrated list: after applying resolutions the source
forces `has_critical_issues = False` and returns, so the converged state
is reached with critical issues present. -/
theorem c4_converged_with_critical_cex :
    (buildAuthority (collectAuth
        [DataFile.mk "单位基本情况_611"
          (some [Row.mk (some "9.35E+17") (some "Acme")])])).truncated ≠ []
      ∧ runIteration (some (ResolutionDoc.mk [] [] [] []))
          [DataFile.mk "单位基本情况_611"
            (some [Row.mk (some "9.35E+17") (some "Acme")])]
        = .proceeded (.convergedReturn
            [DataFile.mk "单位基本情况_611"
              (some [Row.mk (some "9.35E+17") (some "Acme")])]) :=
  ⟨by decide, by decide⟩

/-- C4 (amended): the critical flag is true iff one of the four issue
lists is nonempty; but the converged return of the calibrated list
happens exactly when a resolution document was applied this run,
regardless of remaining critical issues (`has_critical_issues` is forced
false then); without resolutions a critical pass pauses with the report
counts and a clean pass falls through to the next iteration. -/
theorem c4_critical_and_outcome_amended :
    (∀ i : IssuesRec, hasCriticalIssues i = true ↔
        (i.truncated ≠ [] ∨ i.oneToManyCode ≠ []
          ∨ i.oneToManyName ≠ [] ∨ i.missingCodes ≠ []))
    ∧ (∀ (i : IssuesRec) (fs : List DataFile),
        passFinish true i fs = .convergedReturn fs)
    ∧ (∀ (i : IssuesRec) (fs : List DataFile), hasCriticalIssues i = true →
        passFinish false i fs = .pausedReport i.truncated.length
          i.oneToManyCode.length i.oneToManyName.length i.missingCodes.length)
    ∧ (∀ (i : IssuesRec) (fs : List DataFile), hasCriticalIssues i = false →
        passFinish false i fs = .loopAgain) := by
  refine ⟨?_, ?_, ?_, ?_⟩
  · intro i
    simp [hasCriticalIssues]
    tauto
  · intro i fs
    rfl
  · intro i fs h
    simp [passFinish, h]
  · intro i fs h
    simp [passFinish, h]

/-- C4 (amended) witness: one malformed-identifier issue pauses a pass
that applied no resolutions. -/
theorem c4_critical_and_outcome_amended_wit :
    passFinish false (IssuesRec.mk [⟨"611", "9.35E+17", "Acme", 0⟩] [] [] []) []
      = .pausedReport 1 0 0 0 :=
  c4_critical_and_outcome_amended.2.2.1
    (IssuesRec.mk [⟨"611", "9.35E+17", "Acme", 0⟩] [] [] []) [] (by decide)

/-- C5 (counterexample): a `MissingIdentifier` fix whose name-equality
guard fails (row 0 of file `f` currently holds name `"Other"`, the fix
recorded `"Acme"`) is NOT patched into the source row, yet its
`(dataset, row_index)` pair IS recorded in `fixed_rows`, so the row is
skipped — not re-flagged — by the following missing-code scan. -/
theorem c5_rejected_fix_recorded_cex :
    (applyMissingFix
        (ResState.mk [] [] [DataFile.mk "f" (some [Row.mk none (some "Other")])])
        (MissingFix.mk "Acme" "CCCCCCCCCCCCCCCCCC" "f" (some 0))).files
      = [DataFile.mk "f" (some [Row.mk none (some "Other")])]
      ∧ recordFixedRows [MissingFix.mk "Acme" "CCCCCCCCCCCCCCCCCC" "f" (some 0)]
        = [("f", 0)]
      ∧ missingScan "f"
          (recordFixedRows [MissingFix.mk "Acme" "CCCCCCCCCCCCCCCCCC" "f" (some 0)])
          [Row.mk none (some "Other")] = []
      ∧ missingScan "f" [] [Row.mk none (some "Other")] ≠ [] :=
  ⟨by decide, by decide, by decide, by decide⟩

/-- C5 (amended): the recorded `fixed_rows` set contains exactly the
pairs of `missing_codes` fixes carrying a nonempty file, a present
row index and a nonempty code — irrespective of whether the patch was
applied — and every recorded pair is skipped by the next missing-code
scan of its dataset. -/
theorem c5_fixed_rows_amended :
    (∀ (fixes : List MissingFix) (fn : String) (i : Nat),
        (fn, i) ∈ recordFixedRows fixes ↔
          ∃ f, f ∈ fixes ∧ f.rowIndex = some i ∧ pyStrip f.file ≠ ""
            ∧ pyStrip f.code ≠ "" ∧ fn = normName (pyStrip f.file))
    ∧ (∀ (fileName : String) (fixed : List (String × Nat)) (rows : List Row)
        (iss : MissingIssue), iss ∈ missingScan fileName fixed rows →
          (normName fileName, iss.rowIndex) ∉ fixed) := by
  constructor
  · intro fixes fn i
    rw [recordFixedRows, List.mem_filterMap]
    constructor
    · rintro ⟨f, hf, hg⟩
      cases hri : f.rowIndex with
      | none => rw [hri] at hg; simp at hg
      | some j =>
        rw [hri] at hg
        dsimp only at hg
        split at hg
        · rename_i hcond
          simp only [Bool.and_eq_true, decide_eq_true_eq] at hcond
          obtain ⟨hfile, hcode⟩ := hcond
          obtain ⟨hfn, hji⟩ := Prod.mk.injEq .. ▸ Option.some.injEq .. ▸ hg
          exact ⟨f, hf, by rw [hri, hji], hfile, hcode, hfn.symm⟩
        · simp at hg
    · rintro ⟨f, hf, hri, h1, h2, hfn⟩
      refine ⟨f, hf, ?_⟩
      rw [hri]
      dsimp only
      rw [if_pos (by simp [h1, h2])]
      rw [hfn]
  · intro fileName fixed rows iss hmem hin
    rw [missingScan, List.mem_filterMap] at hmem
    obtain ⟨ir, hir, hg⟩ := hmem
    split at hg
    · rename_i hcond
      have hiss : iss = ⟨fileName, cellToStr ir.2.name, ir.1⟩ :=
        (Option.some.injEq .. ▸ hg).symm
      simp only [Bool.and_eq_true, Bool.not_eq_true', decide_eq_false_iff_not] at hcond
      exact hcond.2 (by rw [hiss] at hin; exact hin)
    · simp at hg

/-- C5 (amended) witness: the rejected fix of the counterexample is
recorded in `fixed_rows`. -/
theorem c5_fixed_rows_amended_wit :
    ("f", 0) ∈ recordFixedRows
      [MissingFix.mk "Acme" "CCCCCCCCCCCCCCCCCC" "f" (some 0)] :=
  (c5_fixed_rows_amended.1
      [MissingFix.mk "Acme" "CCCCCCCCCCCCCCCCCC" "f" (some 0)] "f" 0).mpr
    ⟨MissingFix.mk "Acme" "CCCCCCCCCCCCCCCCCC" "f" (some 0),
      by decide, by decide, by decide, by decide, by decide⟩

/-- C7: at-most-once resolution application.  After the resolution phase
runs, the document is gone from the store, and running the phase again
from that state is a no-op: it performs no writes (the state — authority
views and all dataset rows — is returned unchanged), reports no applied
resolution and records no fixed rows. -/
theorem c7_at_most_once (resDoc : Option ResolutionDoc) (st : ResState) :
    (resolutionPhase resDoc st).store = none
      ∧ resolutionPhase (resolutionPhase resDoc st).store
          (resolutionPhase resDoc st).state
        = ResPhaseOut.mk none (resolutionPhase resDoc st).state false [] := by
  cases resDoc <;> simp [resolutionPhase]

/-- `patchFirst` is the identity when the patch fixes every file it
could select. -/
theorem patchFirst_id {p : DataFile → Bool} {g : DataFile → DataFile}
    {l : List DataFile} (h : ∀ f ∈ l, p f = true → g f = f) :
    patchFirst p g l = l := by
  induction l with
  | nil => rfl
  | cons f fs ih =>
    by_cases hp : p f = true
    · simp [patchFirst, hp, h f (by simp) hp]
    · have hp2 : p f = false := eq_false_of_ne_true hp
      simp only [patchFirst, hp2, Bool.false_eq_true, if_false]
      rw [ih (fun x hx hpx => h x (by simp [hx]) hpx)]

/-- C8: the name-equality guard.  When the row addressed by a
`MissingIdentifier` fix cannot be matched — in particular when its
current stripped name no longer equals the name recorded in the fix —
the fix is not written back: every dataset file is returned exactly as
it was, and the applier returns normally (it is a total function; the
mismatch branch only logs). -/
theorem c8_name_guard (st : ResState) (fix : MissingFix) (i : Nat)
    (hri : fix.rowIndex = some i)
    (hmis : ∀ f ∈ st.files, isFixTarget fix.file f = true →
      rowNameMismatch fix i f = true) :
    (applyMissingFix st fix).files = st.files := by
  by_cases hg : (pyStrip fix.name ≠ "" && pyStrip fix.code ≠ "") = true
  · simp only [applyMissingFix, hg, if_true]
    apply patchFirst_id
    intro f hf hp
    have hm := hmis f hf hp
    unfold rowNameMismatch at hm
    unfold patchFileForFix
    cases hc : f.content with
    | none => rfl
    | some rows =>
      rw [hc] at hm
      rw [hri]
      dsimp only at hm ⊢
      by_cases hlt : i < rows.length
      · rw [dif_pos hlt] at hm ⊢
        have hne : (cellToStr (rows.get ⟨i, hlt⟩).name == pyStrip fix.name) = false := by
          simpa [bne] using hm
        simp only [hne, Bool.false_eq_true, if_false]
      · rw [dif_neg hlt]
  · have hg2 : ¬(¬pyStrip fix.name = "" ∧ ¬pyStrip fix.code = "") := by
      simpa using hg
    simp [applyMissingFix, hg2]

/-- C8 witness at a concrete mismatching row. -/
theorem c8_name_guard_wit :
    (applyMissingFix
        (ResState.mk [] [] [DataFile.mk "g" (some [Row.mk none (some "Other")])])
        (MissingFix.mk "Acme" "DDDDDDDDDDDDDDDDDD" "g" (some 0))).files
      = [DataFile.mk "g" (some [Row.mk none (some "Other")])] :=
  c8_name_guard
    (ResState.mk [] [] [DataFile.mk "g" (some [Row.mk none (some "Other")])])
    (MissingFix.mk "Acme" "DDDDDDDDDDDDDDDDDD" "g" (some 0)) 0
    (by decide) (by decide)

/-- C9: per-dataset fault isolation.  The calibration loop maps each
file independently: a file whose read fails is passed through unmodified
with no issues, a readable file is calibrated through both passes, and a
canonical file whose read fails contributes nothing to the authority
build while the remaining files are still processed. -/
theorem c9_io_failure_passthrough :
    (∀ (table revT : List (String × String)) (fixed : List (String × Nat))
        (files : List DataFile),
        (calibrateAll table revT fixed files).1
          = files.map (fun f => (calibrateFile table revT fixed f).1))
    ∧ (∀ (table revT : List (String × String)) (fixed : List (String × Nat))
        (f : DataFile), f.content = none →
        calibrateFile table revT fixed f = (f, []))
    ∧ (∀ (table revT : List (String × String)) (fixed : List (String × Nat))
        (f : DataFile) (rows : List Row), f.content = some rows →
        (calibrateFile table revT fixed f).1
          = DataFile.mk f.normalizedName (some (reconcileRows table revT rows)))
    ∧ (∀ (pre post : List (String × DataFile)) (k : String) (f : DataFile),
        f.content = none →
        buildAuthority (pre ++ (k, f) :: post) = buildAuthority (pre ++ post)) := by
  refine ⟨?_, ?_, ?_, ?_⟩
  · intro table revT fixed files
    induction files with
    | nil => rfl
    | cons f fs ih => simp [calibrateAll, ih]
  · intro table revT fixed f h
    simp [calibrateFile, h]
  · intro table revT fixed f rows h
    simp [calibrateFile, h]
  · intro pre post k f h
    unfold buildAuthority
    rw [List.foldl_append, List.foldl_cons, List.foldl_append]
    simp [h]

/-- C9 witness: an unreadable file passes through unmodified. -/
theorem c9_io_failure_passthrough_wit :
    calibrateFile [] [] [] (DataFile.mk "broken" none)
      = (DataFile.mk "broken" none, []) :=
  c9_io_failure_passthrough.2.1 [] [] [] (DataFile.mk "broken" none) (by decide)

/-- `collectAuth`'s fold ignores every file that is not one of the two
canonical sources. -/
theorem foldl_collect_no_auth (files : List DataFile)
    (acc : List (String × DataFile))
    (h : ∀ f ∈ files, authorityKeyOf f = none) :
    files.foldl
      (fun acc f =>
        match authorityKeyOf f with
        | some k => dictSetFile k f acc
        | none => acc) acc = acc := by
  induction files generalizing acc with
  | nil => rfl
  | cons f fs ih =>
    rw [List.foldl_cons]
    have hf : authorityKeyOf f = none := h f (by simp)
    rw [hf]
    exact ih acc (fun x hx => h x (by simp [hx]))

/-- C10: at the public entry point, an empty cleaned-file list or a list
containing no dataset whose normalized name is one of the two canonical
sources makes the flow return the input list unchanged, before any
authority build, any file read or mutation, any issue or any pause. -/
theorem c10_entry_guards (resDoc : Option ResolutionDoc)
    (files : List DataFile)
    (h : files = [] ∨ ∀ f ∈ files, authorityKeyOf f = none) :
    runIteration resDoc files = .skipped files := by
  rcases h with h | h
  · subst h
    rfl
  · unfold runIteration
    by_cases he : files.isEmpty
    · simp [he]
    · have hca : collectAuth files = [] := by
        unfold collectAuth
        exact foldl_collect_no_auth files [] h
      simp [he, hca]

/-- C10 witness: a single non-canonical dataset is returned unchanged. -/
theorem c10_entry_guards_wit :
    runIteration none [DataFile.mk "other_table" (some [])]
      = .skipped [DataFile.mk "other_table" (some [])] :=
  c10_entry_guards none [DataFile.mk "other_table" (some [])]
    (Or.inr (by decide))

end DataValidation
